import Mathlib

/-!
Verification of the TechPulse news-aggregation client (src/frontend/src/App.js)
and of the spec-modelled ingestion/export core, as a shallow embedding in Lean.

The client is embedded function-by-function: request-body builders, query-string
construction, rendering fallbacks and the pagination state machine are
translated directly from the React component code. The backend core (ingest,
export pipeline) is not part of the repository sources; those definitions are
modelled from the specification and are marked as such in their doc comments.
-/

namespace TechPulse

/-- Minimal model of a JavaScript value as delivered in a JSON response field. -/
inductive JsValue where
  | num (n : Int)
  | str (s : String)
  | boolean (b : Bool)
  | null
deriving DecidableEq

/-- Strict-equality test mirroring the JavaScript operator on this value model:
values of different runtime types are never strictly equal. -/
def jsStrictEq (a b : JsValue) : Bool := decide (a = b)

/-- Badge condition of the article list rendering, App.js line 366: the
Exported badge markup is emitted exactly under `article.exported === 1`. -/
def exportedBadgeShown (exported : JsValue) : Bool :=
  jsStrictEq exported (JsValue.num 1)

/-- Modelled from the spec: the backend serialization of the Article `exported`
flag is absent from src/. The spec requires field semantics preserved
bit-for-bit as derived from the observed client, whose strict comparison
`exported === 1` fixes the wire encoding as the integer 1 for a set flag and 0
for an unset one. -/
def encodeExported (b : Bool) : JsValue :=
  JsValue.num (if b then 1 else 0)

/-- Stats response shape as consumed by the Dashboard. Every field is optional
because the App component first renders the Dashboard with an initial empty
stats object (App.js line 1265) and each access is guarded. -/
structure StatsResp where
  total_articles : Option Nat
  active_sources : Option Nat
  exported_articles : Option Nat
  total_summaries : Option Nat
  by_category : Option (List (String × Nat))
  scheduler_running : Option Bool
  next_collection : Option String
deriving DecidableEq

/-- Initial stats state of the App component: the empty object. -/
def emptyStats : StatsResp := ⟨none, none, none, none, none, none, none⟩

/-- Values the Dashboard component actually puts on screen. -/
structure DashboardView where
  totalArticles : Nat
  activeSources : Nat
  exportedCount : Nat
  summariesCount : Nat
  categoryRows : List (String × Nat)
  schedulerLabel : String
  nextBlock : Option String
deriving DecidableEq

/-- Embedding of the Dashboard rendering, App.js lines 103-233: each counter is
`stats.field || 0`, the category rows come from `stats.by_category ||` the
empty object, the scheduler label is the ternary on `stats.scheduler_running`,
and the next-collection block is emitted only when `stats.next_collection` is
truthy. -/
def renderDashboard (s : StatsResp) : DashboardView where
  totalArticles := s.total_articles.getD 0
  activeSources := s.active_sources.getD 0
  exportedCount := s.exported_articles.getD 0
  summariesCount := s.total_summaries.getD 0
  categoryRows := s.by_category.getD []
  schedulerLabel := if s.scheduler_running.getD false then "Running" else "Stopped"
  nextBlock :=
    match s.next_collection with
    | some t => if t = "" then none else some t
    | none => none

/-- Page size constant of the article list, App.js line 244. -/
def articlesLimit : Nat := 20

/-- Embedding of the query-string construction of fetchArticles, App.js lines
249-254: limit and offset are always present; search and category are appended
only when the corresponding state string is truthy, that is, nonempty. -/
def fetchArticlesParams (search category : String) (page : Nat) :
    List (String × String) :=
  [("limit", toString articlesLimit), ("offset", toString (page * articlesLimit))]
    ++ (if search = "" then [] else [("search", search)])
    ++ (if category = "" then [] else [("category", category)])

/-- Article row shape used by the list rendering. -/
structure ArticleRow where
  id : Nat
  title : String
  description : String
  url : String
  source_name : Option String
  published_date : Option String
  category : Option String
  exported : JsValue
deriving DecidableEq

/-- Response shape of GET /articles. -/
structure ArticlesResponse where
  articles : List ArticleRow
  total : Nat
deriving DecidableEq

/-- Embedding of the fetch-success state update, App.js line 257: the component
renders exactly `response.data.articles`. -/
def renderedArticles (resp : ArticlesResponse) : List ArticleRow := resp.articles

/-- Embedding of the page-count display, App.js line 410:
`Math.ceil(total / limit) || 1`. -/
def pageCountDisplay (total : Nat) : Nat :=
  let c := (total + articlesLimit - 1) / articlesLimit
  if c = 0 then 1 else c

/-- Local UI state of the Articles component that drives pagination. -/
structure ArticlesPageState where
  search : String
  category : String
  page : Int
  total : Nat
deriving DecidableEq

/-- Initial Articles state, App.js lines 239-243: empty search and category,
page 0, total 0. -/
def initialArticlesPage : ArticlesPageState := ⟨"", "", 0, 0⟩

/-- Search box onChange handler, App.js lines 309-312: store the text and reset
the page to 0. -/
def onSearchChange (st : ArticlesPageState) (text : String) : ArticlesPageState :=
  { st with search := text, page := 0 }

/-- Category select onValueChange handler of the Articles component, App.js
lines 319-322: the "all" item maps to the empty string, and the page resets
to 0. -/
def onCategoryChange (st : ArticlesPageState) (val : String) : ArticlesPageState :=
  { st with category := if val = "all" then "" else val, page := 0 }

/-- Disabled condition of the previous-page button, App.js line 403:
`page === 0`. -/
def prevDisabled (st : ArticlesPageState) : Bool := st.page == 0

/-- Disabled condition of the next-page button, App.js line 414:
`(page + 1) * limit >= total`. -/
def nextDisabled (st : ArticlesPageState) : Bool :=
  decide ((st.page + 1) * (articlesLimit : Int) ≥ (st.total : Int))

/-- Previous-page click handler, App.js line 404: `setPage(Math.max(0, p - 1))`. -/
def onPrevClick (st : ArticlesPageState) : ArticlesPageState :=
  { st with page := max 0 (st.page - 1) }

/-- Next-page click handler, App.js line 415: `setPage(p + 1)`. -/
def onNextClick (st : ArticlesPageState) : ArticlesPageState :=
  { st with page := st.page + 1 }

/-- User-visible events of the Articles component. A disabled button cannot be
clicked in the DOM, so the click events apply their handler only when the
button is enabled. -/
inductive PageEvent where
  | searchChange (text : String)
  | categoryChange (val : String)
  | prevClick
  | nextClick
  | fetchSuccess (total : Nat)

/-- One step of the Articles component under a user event. -/
def stepArticlesPage (st : ArticlesPageState) (e : PageEvent) : ArticlesPageState :=
  match e with
  | .searchChange t => onSearchChange st t
  | .categoryChange v => onCategoryChange st v
  | .prevClick => if prevDisabled st then st else onPrevClick st
  | .nextClick => if nextDisabled st then st else onNextClick st
  | .fetchSuccess tot => { st with total := tot }

/-- State after a sequence of user events from the initial state. -/
def runArticlesPage (es : List PageEvent) : ArticlesPageState :=
  es.foldl stepArticlesPage initialArticlesPage

/-- The page index stays nonnegative across one step. -/
theorem stepArticlesPage_page_nonneg (st : ArticlesPageState) (e : PageEvent)
    (h : 0 ≤ st.page) : 0 ≤ (stepArticlesPage st e).page := by
  cases e with
  | searchChange t => exact le_refl 0
  | categoryChange v => exact le_refl 0
  | prevClick =>
      by_cases hd : prevDisabled st
      · simpa [stepArticlesPage, hd] using h
      · simp [stepArticlesPage, hd, onPrevClick]
  | nextClick =>
      simp only [stepArticlesPage]
      split
      · exact h
      · simp only [onNextClick]
        omega
  | fetchSuccess tot => exact h

/-- The page index stays nonnegative across any event sequence. -/
theorem foldl_stepArticlesPage_page_nonneg (es : List PageEvent)
    (st : ArticlesPageState) (h : 0 ≤ st.page) :
    0 ≤ (es.foldl stepArticlesPage st).page := by
  induction es generalizing st with
  | nil => exact h
  | cons e es ih => exact ih _ (stepArticlesPage_page_nonneg st e h)

/-- Source form state of the Sources component. -/
structure SourceFormData where
  name : String
  type : String
  url : String
  enabled : Bool
deriving DecidableEq

/-- Options offered by the source type select, App.js lines 629-631. -/
def sourceTypeOptions : List String := ["rss", "reddit", "scraper"]

/-- Initial form state, App.js lines 433-438. -/
def initialSourceForm : SourceFormData := ⟨"", "rss", "", true⟩

/-- Source row as listed by the backend. -/
structure SourceRow where
  id : Nat
  name : String
  type : String
  url : String
  enabled : Bool
deriving DecidableEq

/-- Body of a PUT /sources/id request. Any subset of the source fields may be
present, matching the free-form JSON object the client sends. -/
structure SourceUpdateBody where
  name : Option String
  type : Option String
  url : Option String
  enabled : Option Bool
deriving DecidableEq

/-- A PUT request to the sources endpoint. -/
structure PutSourceRequest where
  path : String
  body : SourceUpdateBody
deriving DecidableEq

/-- Embedding of handleSubmit in the editing case, App.js lines 454-458: PUT
/sources/id with the whole formData object. -/
def handleSubmitPut (id : Nat) (fd : SourceFormData) : PutSourceRequest :=
  { path := "/sources/" ++ toString id,
    body := { name := some fd.name, type := some fd.type, url := some fd.url,
              enabled := some fd.enabled } }

/-- Embedding of handleToggle, App.js lines 483-492: PUT /sources/id with a
body holding only the negated enabled flag. -/
def handleTogglePut (src : SourceRow) : PutSourceRequest :=
  { path := "/sources/" ++ toString src.id,
    body := { name := none, type := none, url := none,
              enabled := some (!src.enabled) } }

/-- Test for the claimed full source shape with the closed type set. -/
def fullSourceShape (b : SourceUpdateBody) : Bool :=
  b.name.isSome
    && (match b.type with
        | some t => sourceTypeOptions.contains t
        | none => false)
    && b.url.isSome
    && b.enabled.isSome

/-- Category select handler of the Summaries component, App.js line 734: the
chosen value is stored verbatim, including the "all" item. -/
def summariesCategoryOnChange (val : String) : String := val

/-- Body shape of POST /summarize. -/
structure SummarizeBody where
  output_format : String
  category : Option String
  limit : Nat
deriving DecidableEq

/-- Embedding of the body built by generateSummary, App.js lines 704-708:
`category: selectedCategory || null` sends null exactly for the empty string. -/
def generateSummaryBody (outputFormat selectedCategory : String) : SummarizeBody :=
  { output_format := outputFormat,
    category := if selectedCategory = "" then none else some selectedCategory,
    limit := 20 }

/-- Options of the export type select, App.js lines 931-935. -/
def exportTypeOptions : List String := ["notebooklm", "jsonl", "urls"]

/-- Initial exportType state, App.js line 826. -/
def initialExportType : String := "notebooklm"

/-- Reachable values of the exportType state: its initial value, or a value
chosen through the select, which offers exactly the three options. -/
inductive ReachableExportType : String → Prop where
  | initial : ReachableExportType initialExportType
  | selected (v : String) : v ∈ exportTypeOptions → ReachableExportType v

/-- Body shape of POST /export. -/
structure ExportBody where
  export_type : String
  unexported_only : Bool
  mark_exported : Bool
  limit : Nat
deriving DecidableEq

/-- Embedding of the body built by createExport, App.js lines 858-863. -/
def createExportBody (exportType : String) (unexportedOnly : Bool) : ExportBody :=
  { export_type := exportType, unexported_only := unexportedOnly,
    mark_exported := true, limit := 100 }

/-- Response shape of POST /export as used by the client. -/
structure ExportResponse where
  articles_count : Nat
  filename : String
deriving DecidableEq

/-- Success toast of createExport, App.js line 864. -/
def createExportSuccessToast (resp : ExportResponse) : String :=
  "Exported " ++ toString resp.articles_count ++ " articles"

/-- One-decimal fixed rendering of the exact quotient num over den, mirroring
the JavaScript toFixed call with one digit: the quotient is rounded to one
decimal place (halves up) and printed as integer part, dot, and one digit. -/
def toFixed1 (num den : Nat) : String :=
  let tenths := (num * 10 + den / 2) / den
  toString (tenths / 10) ++ "." ++ toString (tenths % 10)

/-- Embedding of formatFileSize, App.js lines 897-901. -/
def formatFileSize (bytes : Nat) : String :=
  if bytes < 1024 then toString bytes ++ " B"
  else if bytes < 1024 * 1024 then toFixed1 bytes 1024 ++ " KB"
  else toFixed1 bytes (1024 * 1024) ++ " MB"

/-- A two-character suffix of an append determines the last two characters. -/
theorem pair_suffix_iff (x y a b : Char) (l : List Char) :
    [x, y] <:+ l ++ [a, b] ↔ x = a ∧ y = b := by
  constructor
  · rintro ⟨t, ht⟩
    have h2 := (List.append_inj' ht rfl).2
    simpa using h2
  · rintro ⟨rfl, rfl⟩
    exact ⟨l, rfl⟩

/-- A three-character suffix yields its two-character tail as a suffix. -/
theorem triple_suffix_pair (x y z : Char) (m : List Char) (h : [x, y, z] <:+ m) :
    [y, z] <:+ m :=
  List.IsSuffix.trans ⟨[x], rfl⟩ h

/-- Normalized article shape produced by the Fetch Engine adapters. -/
structure NormalizedItem where
  title : String
  description : String
  url : String
  published_date : Option String
deriving DecidableEq

/-- Modelled from the spec: the Article row of the Deduplication & Persistence
layer, described in section 3 of the spec; the backing store code is absent
from src/. -/
structure Article where
  id : Nat
  title : String
  description : String
  url : String
  source_id : Nat
  published_date : Option String
  category : Option String
  exported : Bool
deriving DecidableEq

/-- Modelled from the spec: the article store with its id counter. -/
structure Store where
  articles : List Article
  nextId : Nat
deriving DecidableEq

/-- Result triple of one ingest call. -/
structure IngestResult where
  store : Store
  created : Bool
  article_id : Nat
deriving DecidableEq

/-- Modelled from the spec: the ingest operation of the Deduplication &
Persistence layer, section 4.2 — the dedup key is the exact canonical url; an
existing row makes the call a no-op returning created false and the existing
id; otherwise a new row is appended with category null and exported false. -/
def ingest (st : Store) (item : NormalizedItem) (sourceId : Nat) : IngestResult :=
  match st.articles.find? (fun a => a.url == item.url) with
  | some a => { store := st, created := false, article_id := a.id }
  | none =>
      { store :=
          { articles := st.articles ++
              [{ id := st.nextId, title := item.title,
                 description := item.description, url := item.url,
                 source_id := sourceId, published_date := item.published_date,
                 category := none, exported := false }],
            nextId := st.nextId + 1 },
        created := true, article_id := st.nextId }

/-- Uniqueness invariant of the store: all stored urls are pairwise distinct. -/
def UrlsUnique (st : Store) : Prop := (st.articles.map Article.url).Nodup

/-- Modelled from the spec: the Export Pipeline selection, section 4.5 — up to
limit articles, restricted to unexported ones when unexported_only is set. -/
def selectForExport (st : Store) (unexportedOnly : Bool) (limit : Nat) :
    List Article :=
  (if unexportedOnly then st.articles.filter (fun a => !a.exported)
   else st.articles).take limit

/-- Modelled from the spec: flipping the exported flag on every selected
article. -/
def markExportedAll (st : Store) (sel : List Article) : Store :=
  { st with articles := st.articles.map (fun a =>
      if sel.any (fun b => b.id == a.id) then { a with exported := true }
      else a) }

/-- Store and caller-visible result of one export run. -/
structure ExportOutcome where
  store : Store
  result : Except String Nat

/-- Modelled from the spec: one run of the export operation, section 4.5. The
writeOk flag models whether the file write step succeeds; an empty selection
is rejected, and on a failed write the store is returned unchanged with an
error, so no article is marked. -/
def exportRun (st : Store) (unexportedOnly markExported writeOk : Bool)
    (limit : Nat) : ExportOutcome :=
  let sel := selectForExport st unexportedOnly limit
  if sel.isEmpty then { store := st, result := Except.error "nothing to export" }
  else if writeOk then
    { store := if markExported then markExportedAll st sel else st,
      result := Except.ok sel.length }
  else { store := st, result := Except.error "file write failed" }

/-- Sample article with the exported flag set. -/
def sampleArticle1 : Article :=
  ⟨1, "a", "da", "https://a.example", 1, none, none, true⟩

/-- Sample article with the exported flag unset. -/
def sampleArticle2 : Article :=
  ⟨2, "b", "db", "https://b.example", 1, none, none, false⟩

/-- Sample store holding both sample articles. -/
def sampleStore : Store := ⟨[sampleArticle1, sampleArticle2], 3⟩

/-- Sample normalized item with a fresh url. -/
def sampleItem : NormalizedItem := ⟨"t", "d", "https://u.example", none⟩

/-- Mapping a list relates it pointwise to its image. -/
theorem forall₂_map_self {α β : Type} (f : α → β) (R : α → β → Prop)
    (l : List α) (h : ∀ a ∈ l, R a (f a)) : List.Forall₂ R l (l.map f) := by
  induction l with
  | nil => exact List.Forall₂.nil
  | cons a l ih =>
      exact List.Forall₂.cons (h a (List.mem_cons_self a l))
        (ih fun x hx => h x (List.mem_cons_of_mem a hx))

/-- A list relates pointwise to itself under a reflexive-on-members relation. -/
theorem forall₂_self {α : Type} (R : α → α → Prop) (l : List α)
    (h : ∀ a ∈ l, R a a) : List.Forall₂ R l l := by
  induction l with
  | nil => exact List.Forall₂.nil
  | cons a l ih =>
      exact List.Forall₂.cons (h a (List.mem_cons_self a l))
        (ih fun x hx => h x (List.mem_cons_of_mem a hx))

/-- Searching an append whose first part has no hit searches the second part. -/
theorem find?_append_none {α : Type} (p : α → Bool) (l l' : List α)
    (h : l.find? p = none) : (l ++ l').find? p = l'.find? p := by
  induction l with
  | nil => rfl
  | cons a l ih =>
      have hpa : p a = false := by
        have := List.find?_eq_none.1 h a (List.mem_cons_self a l)
        simpa using this
      have hl : l.find? p = none := by
        rw [List.find?_eq_none] at h ⊢
        exact fun x hx => h x (List.mem_cons_of_mem a hx)
      simp only [List.cons_append, List.find?_cons, hpa]
      exact ih hl

/-- A url carried by some member of a url-nodup list is hit by the filter on
that url exactly once. -/
theorem filter_url_length_one (l : List Article) (u : String)
    (hn : (l.map Article.url).Nodup) (a : Article) (ha : a ∈ l)
    (hau : a.url = u) :
    (l.filter (fun x => x.url == u)).length = 1 := by
  induction l with
  | nil => cases ha
  | cons b l ih =>
      simp only [List.map_cons, List.nodup_cons] at hn
      rcases List.mem_cons.1 ha with rfl | hal
      · have hb : (a.url == u) = true := by simp [hau]
        have hrest : l.filter (fun x => x.url == u) = [] := by
          refine List.filter_eq_nil_iff.2 fun x hx => ?_
          simp only [beq_iff_eq]
          intro hxu
          exact hn.1 (hau ▸ hxu ▸ List.mem_map_of_mem Article.url hx)
        simp [List.filter_cons, hb, hrest]
      · have hbu : (b.url == u) = false := by
          simp only [beq_eq_false_iff_ne, ne_eq]
          intro hbeq
          exact hn.1 (hbeq ▸ hau ▸ List.mem_map_of_mem Article.url hal)
        simp only [List.filter_cons, hbu, if_false, Bool.false_eq_true]
        exact ih hn.2 hal

/-- Evaluation of ingest when the url is not yet stored. -/
theorem ingest_of_none (st : Store) (item : NormalizedItem) (sid : Nat)
    (hf : st.articles.find? (fun a => a.url == item.url) = none) :
    ingest st item sid =
      ⟨⟨st.articles ++
          [⟨st.nextId, item.title, item.description, item.url, sid,
            item.published_date, none, false⟩], st.nextId + 1⟩,
        true, st.nextId⟩ := by
  unfold ingest
  rw [hf]

/-- Evaluation of ingest when the url is already stored. -/
theorem ingest_of_some (st : Store) (item : NormalizedItem) (sid : Nat)
    (a : Article) (hf : st.articles.find? (fun x => x.url == item.url) = some a) :
    ingest st item sid = ⟨st, false, a.id⟩ := by
  unfold ingest
  rw [hf]

end TechPulse

namespace TechPulse

/-- C7: for every article returned by the article query, the client displays
the Exported badge exactly when the article's exported flag is set, and no
badge when it is unset. -/
theorem exported_badge_iff_flag_set (b : Bool) :
    exportedBadgeShown (encodeExported b) = b := by
  cases b <;> rfl

/-- C8: rendering the Dashboard is total for every stats value including the
initial empty object: each counter falls back to 0 when its field is absent,
the category breakdown falls back to the empty list, and the scheduler status
and next-collection block render without error when their fields are missing. -/
theorem dashboard_render_total_on_missing :
    renderDashboard emptyStats =
      { totalArticles := 0, activeSources := 0, exportedCount := 0,
        summariesCount := 0, categoryRows := [], schedulerLabel := "Stopped",
        nextBlock := none }
    ∧ (∀ (b c d : Option Nat) (e : Option (List (String × Nat)))
        (f : Option Bool) (g : Option String),
        (renderDashboard ⟨none, b, c, d, e, f, g⟩).totalArticles = 0)
    ∧ (∀ (a c d : Option Nat) (e : Option (List (String × Nat)))
        (f : Option Bool) (g : Option String),
        (renderDashboard ⟨a, none, c, d, e, f, g⟩).activeSources = 0)
    ∧ (∀ (a b d : Option Nat) (e : Option (List (String × Nat)))
        (f : Option Bool) (g : Option String),
        (renderDashboard ⟨a, b, none, d, e, f, g⟩).exportedCount = 0)
    ∧ (∀ (a b c : Option Nat) (e : Option (List (String × Nat)))
        (f : Option Bool) (g : Option String),
        (renderDashboard ⟨a, b, c, none, e, f, g⟩).summariesCount = 0)
    ∧ (∀ (a b c d : Option Nat) (f : Option Bool) (g : Option String),
        (renderDashboard ⟨a, b, c, d, none, f, g⟩).categoryRows = [])
    ∧ (∀ (a b c d : Option Nat) (e : Option (List (String × Nat)))
        (g : Option String),
        (renderDashboard ⟨a, b, c, d, e, none, g⟩).schedulerLabel = "Stopped")
    ∧ (∀ (a b c d : Option Nat) (e : Option (List (String × Nat)))
        (f : Option Bool),
        (renderDashboard ⟨a, b, c, d, e, f, none⟩).nextBlock = none) := by
  refine ⟨rfl, ?_, ?_, ?_, ?_, ?_, ?_, ?_⟩ <;> intros <;> rfl

/-- C5: for every page index, the article list requests limit 20 and offset
20 times the page, appends the search and category parameters only when they
are nonempty, renders exactly the returned articles array, and derives the
displayed page count from the returned total. -/
theorem fetch_articles_request_and_render (search category : String) (page : Nat)
    (resp : ArticlesResponse) :
    (fetchArticlesParams search category page).lookup "limit" = some "20"
    ∧ (fetchArticlesParams search category page).lookup "offset"
        = some (toString (20 * page))
    ∧ ((fetchArticlesParams search category page).lookup "search"
        = if search = "" then none else some search)
    ∧ ((fetchArticlesParams search category page).lookup "category"
        = if category = "" then none else some category)
    ∧ renderedArticles resp = resp.articles
    ∧ pageCountDisplay resp.total = max 1 ((resp.total + 19) / 20) := by
  refine ⟨?_, ?_, ?_, ?_, rfl, ?_⟩
  · by_cases hs : search = "" <;> by_cases hc : category = "" <;>
      simp [fetchArticlesParams, hs, hc, List.lookup] <;> rfl
  · by_cases hs : search = "" <;> by_cases hc : category = "" <;>
      simp [fetchArticlesParams, hs, hc, List.lookup, articlesLimit,
        Nat.mul_comm page 20]
  · by_cases hs : search = "" <;> by_cases hc : category = "" <;>
      simp [fetchArticlesParams, hs, hc, List.lookup]
  · by_cases hs : search = "" <;> by_cases hc : category = "" <;>
      simp [fetchArticlesParams, hs, hc, List.lookup]
  · show (if (resp.total + articlesLimit - 1) / articlesLimit = 0 then 1
        else (resp.total + articlesLimit - 1) / articlesLimit)
        = max 1 ((resp.total + 19) / 20)
    simp only [articlesLimit]
    split <;> omega

/-- C9: the article-list page index is never negative: it starts at 0, every
search or category change resets it to 0, the previous-page button is disabled
exactly under the condition page equals 0, and the next-page button is
disabled exactly under the condition that the next page would start at or past
the returned total. -/
theorem article_page_never_negative (es : List PageEvent)
    (st : ArticlesPageState) (t v : String) :
    0 ≤ (runArticlesPage es).page
    ∧ initialArticlesPage.page = 0
    ∧ (onSearchChange st t).page = 0
    ∧ (onCategoryChange st v).page = 0
    ∧ prevDisabled st = (st.page == 0)
    ∧ nextDisabled st = decide ((st.page + 1) * 20 ≥ (st.total : Int)) := by
  refine ⟨foldl_stepArticlesPage_page_nonneg es initialArticlesPage (le_refl 0),
    rfl, rfl, rfl, rfl, rfl⟩

/-- C2 counterexample: the enabled-toggle update for a concrete source is a
PUT /sources/id request whose body is not the full source shape: it carries no
name, no type and no url. -/
theorem toggle_put_not_full_shape :
    (handleTogglePut
        ⟨3, "Hacker News", "rss", "https://news.ycombinator.com/rss", true⟩).path
      = "/sources/3"
    ∧ fullSourceShape (handleTogglePut
        ⟨3, "Hacker News", "rss", "https://news.ycombinator.com/rss", true⟩).body
      = false := by
  exact ⟨rfl, rfl⟩

/-- C2 amended: a form-submitted source update carries the full source shape
with its type field, drawn from the closed option set when the form's type is
one of the selectable options, while the enabled-toggle update sends only the
negated enabled flag. -/
theorem source_update_request_shapes (id : Nat) (fd : SourceFormData)
    (src : SourceRow) (h : fd.type ∈ sourceTypeOptions) :
    fullSourceShape (handleSubmitPut id fd).body = true
    ∧ (handleSubmitPut id fd).body
        = ⟨some fd.name, some fd.type, some fd.url, some fd.enabled⟩
    ∧ (handleTogglePut src).body = ⟨none, none, none, some (!src.enabled)⟩ := by
  refine ⟨?_, rfl, rfl⟩
  simp only [sourceTypeOptions, List.mem_cons, List.not_mem_nil, or_false] at h
  rcases h with h | h | h <;>
    simp [fullSourceShape, handleSubmitPut, h, sourceTypeOptions]

/-- C2 amended, witnessed at a concrete form and source. -/
theorem source_update_request_shapes_witness :
    fullSourceShape (handleSubmitPut 3
        ⟨"HN", "reddit", "https://r.example", false⟩).body = true
    ∧ (handleTogglePut ⟨3, "HN", "rss", "https://r.example", true⟩).body
        = ⟨none, none, none, some false⟩ := by
  have h := source_update_request_shapes 3
      ⟨"HN", "reddit", "https://r.example", false⟩
      ⟨3, "HN", "rss", "https://r.example", true⟩ (by decide)
  exact ⟨h.1, h.2.2⟩

/-- C3: selecting the All Categories item in the Summaries component stores
the literal string "all", so the next POST /summarize body carries
category equal to some "all" rather than the null the claim and the spec's
nullable-means-all contract require; the Articles component, by contrast, maps
the "all" item back to the empty string. -/
theorem summarize_all_categories_sends_all :
    (generateSummaryBody "markdown" (summariesCategoryOnChange "all")).category
        = some "all"
    ∧ summariesCategoryOnChange "all" = "all"
    ∧ (onCategoryChange initialArticlesPage "all").category = "" := by
  refine ⟨?_, rfl, rfl⟩
  simp [generateSummaryBody, summariesCategoryOnChange]

/-- C4: every export the client creates posts an export_type from the closed
option set together with mark_exported true and limit 100, echoes the current
unexported-only toggle, and on success reports the articles_count field of the
response. -/
theorem create_export_body_shape (et : String) (uo : Bool) (resp : ExportResponse)
    (h : ReachableExportType et) :
    (createExportBody et uo).export_type ∈ exportTypeOptions
    ∧ (createExportBody et uo).mark_exported = true
    ∧ (createExportBody et uo).limit = 100
    ∧ (createExportBody et uo).unexported_only = uo
    ∧ createExportSuccessToast resp
        = "Exported " ++ toString resp.articles_count ++ " articles" := by
  refine ⟨?_, rfl, rfl, rfl, rfl⟩
  cases h with
  | initial => simp [createExportBody, initialExportType, exportTypeOptions]
  | selected v hv => exact hv

/-- C4 witnessed at a concrete export type, toggle and response. -/
theorem create_export_body_shape_witness :
    (createExportBody "jsonl" true).export_type ∈ exportTypeOptions
    ∧ (createExportBody "jsonl" true).mark_exported = true
    ∧ (createExportBody "jsonl" true).limit = 100
    ∧ (createExportBody "jsonl" true).unexported_only = true
    ∧ createExportSuccessToast ⟨7, "export.txt"⟩ = "Exported 7 articles" := by
  have h := create_export_body_shape "jsonl" true ⟨7, "export.txt"⟩
      (ReachableExportType.selected _ (by decide))
  refine ⟨h.1, h.2.1, h.2.2.1, h.2.2.2.1, ?_⟩
  rw [h.2.2.2.2]
  rfl

/-- C10: formatFileSize partitions nonnegative byte counts by unit: the output
carries the " B" suffix exactly when bytes < 1024, the " KB" suffix exactly
when 1024 ≤ bytes < 1048576, and the " MB" suffix otherwise. -/
theorem formatFileSize_unit_partition (bytes : Nat) :
    ((" B".data <:+ (formatFileSize bytes).data) ↔ bytes < 1024)
    ∧ ((" KB".data <:+ (formatFileSize bytes).data)
        ↔ 1024 ≤ bytes ∧ bytes < 1048576)
    ∧ ((" MB".data <:+ (formatFileSize bytes).data) ↔ 1048576 ≤ bytes) := by
  have hB : " B".data = [' ', 'B'] := rfl
  have hKB : " KB".data = [' ', 'K', 'B'] := rfl
  have hMB : " MB".data = [' ', 'M', 'B'] := rfl
  by_cases h1 : bytes < 1024
  · have hdata : (formatFileSize bytes).data
        = (toString bytes).data ++ [' ', 'B'] := by
      simp [formatFileSize, h1, String.data_append]
    refine ⟨?_, ?_, ?_⟩
    · rw [hdata, hB]
      exact iff_of_true ⟨(toString bytes).data, rfl⟩ h1
    · rw [hdata, hKB]
      refine iff_of_false ?_ (by omega)
      intro hs
      have h2 := (pair_suffix_iff _ _ _ _ _).1 (triple_suffix_pair _ _ _ _ hs)
      exact absurd h2.1 (by decide)
    · rw [hdata, hMB]
      refine iff_of_false ?_ (by omega)
      intro hs
      have h2 := (pair_suffix_iff _ _ _ _ _).1 (triple_suffix_pair _ _ _ _ hs)
      exact absurd h2.1 (by decide)
  · by_cases h2 : bytes < 1024 * 1024
    · have hdata : (formatFileSize bytes).data
          = (toFixed1 bytes 1024).data ++ [' ', 'K', 'B'] := by
        simp [formatFileSize, h1, h2, String.data_append]
      have hsplit : (toFixed1 bytes 1024).data ++ [' ', 'K', 'B']
          = ((toFixed1 bytes 1024).data ++ [' ']) ++ ['K', 'B'] := by
        simp
      refine ⟨?_, ?_, ?_⟩
      · rw [hdata, hB, hsplit]
        refine iff_of_false ?_ (by omega)
        intro hs
        have h3 := (pair_suffix_iff _ _ _ _ _).1 hs
        exact absurd h3.1 (by decide)
      · rw [hdata, hKB]
        exact iff_of_true ⟨(toFixed1 bytes 1024).data, rfl⟩
          ⟨by omega, by omega⟩
      · rw [hdata, hMB, hsplit]
        refine iff_of_false ?_ (by omega)
        intro hs
        have h3 := (pair_suffix_iff _ _ _ _ _).1 (triple_suffix_pair _ _ _ _ hs)
        exact absurd h3.1 (by decide)
    · have hdata : (formatFileSize bytes).data
          = (toFixed1 bytes (1024 * 1024)).data ++ [' ', 'M', 'B'] := by
        simp [formatFileSize, h1, h2, String.data_append]
      have hsplit : (toFixed1 bytes (1024 * 1024)).data ++ [' ', 'M', 'B']
          = ((toFixed1 bytes (1024 * 1024)).data ++ [' ']) ++ ['M', 'B'] := by
        simp
      refine ⟨?_, ?_, ?_⟩
      · rw [hdata, hB, hsplit]
        refine iff_of_false ?_ (by omega)
        intro hs
        have h3 := (pair_suffix_iff _ _ _ _ _).1 hs
        exact absurd h3.1 (by decide)
      · rw [hdata, hKB, hsplit]
        refine iff_of_false ?_ (by omega)
        intro hs
        have h3 := (pair_suffix_iff _ _ _ _ _).1 (triple_suffix_pair _ _ _ _ hs)
        exact absurd h3.1 (by decide)
      · rw [hdata, hMB]
        exact iff_of_true ⟨(toFixed1 bytes (1024 * 1024)).data, rfl⟩
          (by omega)

/-- C10 witnessed at 2048 bytes, which renders with the kilobyte suffix. -/
theorem formatFileSize_unit_partition_witness :
    " KB".data <:+ (formatFileSize 2048).data :=
  (formatFileSize_unit_partition 2048).2.1.mpr (by omega)

/-- C1: under the url-uniqueness invariant, ingesting the same normalized item
twice, with the same or a different source, yields exactly one stored row for
its url: the second call is a no-op returning created false and the same id on
the unchanged store, and the invariant is preserved. -/
theorem ingest_twice_single_row (st : Store) (item : NormalizedItem)
    (sid sid' : Nat) (hu : UrlsUnique st) :
    (ingest (ingest st item sid).store item sid').created = false
    ∧ (ingest (ingest st item sid).store item sid').article_id
        = (ingest st item sid).article_id
    ∧ (ingest (ingest st item sid).store item sid').store
        = (ingest st item sid).store
    ∧ ((ingest st item sid).store.articles.filter
        (fun a => a.url == item.url)).length = 1
    ∧ UrlsUnique (ingest st item sid).store := by
  rcases hf : st.articles.find? (fun a => a.url == item.url) with _ | a
  · -- the url is new: the first call creates a row, the second finds it
    have hnew : ∀ x ∈ st.articles, (x.url == item.url) = false := by
      intro x hx
      have := List.find?_eq_none.1 hf x hx
      simpa using this
    have hnotmem : item.url ∉ st.articles.map Article.url := by
      intro hmem
      rcases List.mem_map.1 hmem with ⟨x, hx, hxe⟩
      have := hnew x hx
      simp [hxe] at this
    have h1 := ingest_of_none st item sid hf
    have hfind2 : (st.articles ++
        [(⟨st.nextId, item.title, item.description, item.url, sid,
          item.published_date, none, false⟩ : Article)]).find?
          (fun x => x.url == item.url)
        = some (⟨st.nextId, item.title, item.description, item.url, sid,
          item.published_date, none, false⟩ : Article) := by
      rw [find?_append_none _ _ _ hf]
      simp [List.find?_cons]
    have h2 := ingest_of_some ((ingest st item sid).store) item sid'
        ⟨st.nextId, item.title, item.description, item.url, sid,
          item.published_date, none, false⟩ (by rw [h1]; exact hfind2)
    refine ⟨?_, ?_, ?_, ?_, ?_⟩
    · rw [h2]
    · rw [h2, h1]
    · rw [h2]
    · rw [h1]
      show ((st.articles ++
          [(⟨st.nextId, item.title, item.description, item.url, sid,
            item.published_date, none, false⟩ : Article)]).filter
          (fun a => a.url == item.url)).length = 1
      rw [List.filter_append,
        List.filter_eq_nil_iff.2 fun x hx => by simp [hnew x hx]]
      simp
    · rw [show (ingest st item sid).store
          = ⟨st.articles ++
              [⟨st.nextId, item.title, item.description, item.url, sid,
                item.published_date, none, false⟩], st.nextId + 1⟩ from by
        rw [h1]]
      show (List.map Article.url (st.articles ++
          [(⟨st.nextId, item.title, item.description, item.url, sid,
            item.published_date, none, false⟩ : Article)])).Nodup
      rw [List.map_append, List.nodup_append]
      refine ⟨hu, by simp, ?_⟩
      intro x hx hx2
      simp only [List.map_cons, List.map_nil, List.mem_singleton] at hx2
      exact hnotmem (hx2 ▸ hx)
  · -- the url already exists: both calls are no-ops on the same row
    have hmem := List.mem_of_find?_eq_some hf
    have hurl : a.url = item.url := by
      have := List.find?_some hf
      simpa using this
    have h1 := ingest_of_some st item sid a hf
    have h2 := ingest_of_some st item sid' a hf
    have hst : (ingest st item sid).store = st := by rw [h1]
    refine ⟨?_, ?_, ?_, ?_, ?_⟩
    · rw [hst, h2]
    · rw [hst, h2, h1]
    · rw [hst, h2]
    · rw [hst]
      exact filter_url_length_one st.articles item.url hu a hmem hurl
    · rw [show UrlsUnique (ingest st item sid).store = UrlsUnique st from by
        rw [hst]]
      exact hu

/-- C1 witnessed on the empty store: two ingest calls of one item from two
different sources leave a single matching row and the second call creates
nothing. -/
theorem ingest_twice_single_row_witness :
    (ingest (ingest ⟨[], 0⟩ sampleItem 1).store sampleItem 2).created = false
    ∧ ((ingest ⟨[], 0⟩ sampleItem 1).store.articles.filter
        (fun a => a.url == sampleItem.url)).length = 1 := by
  have h := ingest_twice_single_row ⟨[], 0⟩ sampleItem 1 2
      (by simp [UrlsUnique])
  exact ⟨h.1, h.2.2.2.1⟩

/-- C6: with mark_exported true, the exported flag is flipped on every selected
article all-or-nothing: any failing run, including a failed file write, leaves
the store untouched; an article's flag after a run is its old flag or-ed with
its selection on a successful run, so a set flag is never reset; and the only
other mutator, ingest, keeps existing rows unchanged and creates rows with the
flag unset. -/
theorem export_mark_all_or_nothing (st : Store) (uo wOk : Bool) (lim : Nat)
    (item : NormalizedItem) (sid : Nat) :
    (wOk = false → (exportRun st uo true wOk lim).store = st)
    ∧ (∀ e, (exportRun st uo true wOk lim).result = Except.error e
        → (exportRun st uo true wOk lim).store = st)
    ∧ List.Forall₂ (fun a b => b.id = a.id
          ∧ b.exported = (a.exported
              || ((exportRun st uo true wOk lim).result.toOption.isSome
                  && (selectForExport st uo lim).any (fun s => s.id == a.id))))
        st.articles (exportRun st uo true wOk lim).store.articles
    ∧ st.articles <+: (ingest st item sid).store.articles
    ∧ (∀ b ∈ (ingest st item sid).store.articles,
        b ∉ st.articles → b.exported = false) := by
  refine ⟨?_, ?_, ?_, ?_, ?_⟩
  · intro hwf
    subst hwf
    by_cases hsel : (selectForExport st uo lim).isEmpty <;> simp [exportRun, hsel]
  · intro e he
    by_cases hsel : (selectForExport st uo lim).isEmpty
    · simp [exportRun, hsel]
    · cases wOk
      · simp [exportRun, hsel]
      · simp [exportRun, hsel] at he
  · by_cases hsel : (selectForExport st uo lim).isEmpty
    · simp only [exportRun, hsel, if_pos, Except.toOption, Option.isSome_none,
        Bool.false_and, Bool.or_false]
      exact forall₂_self _ _ fun a _ => ⟨rfl, rfl⟩
    · cases wOk
      · simp only [exportRun, hsel, Bool.false_eq_true, if_false,
          Except.toOption, Option.isSome_none, Bool.false_and, Bool.or_false]
        exact forall₂_self _ _ fun a _ => ⟨rfl, rfl⟩
      · simp only [exportRun, hsel, Bool.false_eq_true, if_false, if_true,
          Except.toOption, Option.isSome_some, Bool.true_and, markExportedAll]
        refine forall₂_map_self _ _ _ fun a _ => ⟨?_, ?_⟩
        · by_cases hc : (selectForExport st uo lim).any (fun b => b.id == a.id) <;>
            simp [hc]
        · by_cases hc : (selectForExport st uo lim).any (fun b => b.id == a.id) <;>
            simp [hc]
  · rcases hf : st.articles.find? (fun a => a.url == item.url) with _ | a
    · simp only [ingest, hf]
      exact List.prefix_append _ _
    · simp only [ingest, hf]
      exact List.prefix_rfl
  · intro b hb hnb
    rcases hf : st.articles.find? (fun a => a.url == item.url) with _ | a
    · simp only [ingest, hf] at hb
      rcases List.mem_append.1 hb with hb1 | hb2
      · exact absurd hb1 hnb
      · rw [List.mem_singleton.1 hb2]
    · simp only [ingest, hf] at hb
      exact absurd hb hnb

/-- C6 witnessed at a concrete store: a failed write leaves the store
untouched, and a successful marking run relates the old and new rows by the
flip-selected-flags relation. -/
theorem export_mark_all_or_nothing_witness :
    (exportRun sampleStore true true false 5).store = sampleStore
    ∧ List.Forall₂ (fun a b => b.id = a.id
          ∧ b.exported = (a.exported
              || ((exportRun sampleStore true true true 5).result.toOption.isSome
                  && (selectForExport sampleStore true 5).any
                      (fun s => s.id == a.id))))
        sampleStore.articles (exportRun sampleStore true true true 5).store.articles := by
  refine ⟨(export_mark_all_or_nothing sampleStore true false 5 sampleItem 9).1 rfl,
    (export_mark_all_or_nothing sampleStore true true 5 sampleItem 9).2.2.1⟩

end TechPulse
